import Mathlib

/-!
Shallow embedding of the zincati configuration-overlay and weekly-window
core: `src/weekly/utils.rs` (weekly-minute conversion, weekday/time
parsers, duration validation) and `src/config/inputs.rs` (fragment
overlay merge).  Machine integers are embedded as `Nat` with explicit
saturation where the source uses saturating arithmetic; fallible Rust
functions returning `Fallible<T>` become `Option`/`Except` values.
-/

/-! ## Constants of the weekly time domain

The constants `MAX_WEEKLY_MINS` and `MAX_WEEKLY_SECS` are declared in the
crate's `weekly` module, which is not among the provided source files;
their values are fixed by the specification. -/

/-- Modelled from the spec: `MAX_WEEKLY_MINUTES = 7 * 24 * 60 = 10080`,
the number of minutes in a week (`MAX_WEEKLY_MINS` in the `weekly`
module, absent from the provided sources). -/
def MAX_WEEKLY_MINS : Nat := 10080

/-- Modelled from the spec: one week in seconds, `604800`
(`MAX_WEEKLY_SECS` in the `weekly` module, absent from the provided
sources). -/
def MAX_WEEKLY_SECS : Nat := 604800

/-- `u32::MAX`, the saturation bound of Rust's `u32` saturating ops. -/
def U32_MAX : Nat := 4294967295

/-- Rust `u32::saturating_mul` on values embedded as `Nat`. -/
def u32_saturating_mul (a b : Nat) : Nat := min (a * b) U32_MAX

/-- Rust `u32::saturating_add` on values embedded as `Nat`. -/
def u32_saturating_add (a b : Nat) : Nat := min (a + b) U32_MAX

/-! ## Weekday (chrono::Weekday)

`chrono::Weekday` is an external-library enum; its
`num_days_from_monday` numbering (Monday = 0 … Sunday = 6) is the
documented chrono behaviour and is restated in the spec's data model. -/

/-- The seven weekdays, as in `chrono::Weekday`. -/
inductive Weekday where
  | mon | tue | wed | thu | fri | sat | sun
deriving DecidableEq

/-- `chrono::Weekday::num_days_from_monday`: Monday = 0 … Sunday = 6. -/
def Weekday.num_days_from_monday : Weekday → Nat
  | .mon => 0
  | .tue => 1
  | .wed => 2
  | .thu => 3
  | .fri => 4
  | .sat => 5
  | .sun => 6

/-! ## Weekly-minute conversion (`time_as_weekly_minute`) -/

/-- `time_as_weekly_minute` from `src/weekly/utils.rs`:
clamps `hour` to 23 and `minute` to 59 (`u8::min`), combines with the
day's offset using `u32` saturating arithmetic, then asserts the result
is `< MAX_WEEKLY_MINS`.  The `assert!` (a panic on failure) is embedded
as `none`; a normal return is `some`. -/
def time_as_weekly_minute (day : Weekday) (hour minute : Nat) : Option Nat :=
  let hour_minutes := u32_saturating_mul (min hour 23) 60
  let day_minutes :=
    u32_saturating_mul (u32_saturating_mul day.num_days_from_monday 24) 60
  let weekly_minute :=
    u32_saturating_add (u32_saturating_add day_minutes hour_minutes) (min minute 59)
  if weekly_minute < MAX_WEEKLY_MINS then some weekly_minute else none

/-! ## Duration validation (`check_duration`) -/

/-- A Rust `std::time::Duration`: whole seconds plus a sub-second
nanosecond part (well-formed values keep `nanos < 10^9`).
`as_secs` returns the whole-seconds part only. -/
structure Duration where
  secs : Nat
  nanos : Nat

/-- Rust `Duration::as_secs`: the whole-seconds part. -/
def Duration.as_secs (d : Duration) : Nat := d.secs

/-- The two failure kinds of `check_duration`. -/
inductive DurationError where
  | tooLong
  | zeroLength

/-- `check_duration` from `src/weekly/utils.rs`: bails with
"length longer than a week" when `as_secs() > MAX_WEEKLY_SECS`, then
with "zero-length duration" when `as_secs() == 0`. -/
def check_duration (length : Duration) : Except DurationError Unit :=
  if length.as_secs > MAX_WEEKLY_SECS then .error .tooLong
  else if length.as_secs = 0 then .error .zeroLength
  else .ok ()

/-! ## Lexical parsers (`weekday_from_string`, `time_from_string`)

Rust `&str` values are embedded as `List Char`.  Rust's
`str::to_lowercase` coincides with per-character ASCII lowercasing
(`Char.toLower`) on ASCII input, which covers every string the weekday
table can match. -/

/-- Rust `str::to_lowercase`, restricted to its ASCII behaviour. -/
def to_lowercase (s : List Char) : List Char := s.map Char.toLower

/-- `weekday_from_string` from `src/weekly/utils.rs`: lowercases the
input and matches it against the literal arms of the source `match`,
including the source's misspelt arm `"tuesady"`.  `bail!` is embedded as
`none`. -/
def weekday_from_string (input : List Char) : Option Weekday :=
  let s := to_lowercase input
  if s = "mon".data ∨ s = "monday".data then some .mon
  else if s = "tue".data ∨ s = "tuesady".data then some .tue
  else if s = "wed".data ∨ s = "wednesday".data then some .wed
  else if s = "thu".data ∨ s = "thursday".data then some .thu
  else if s = "fri".data ∨ s = "friday".data then some .fri
  else if s = "sat".data ∨ s = "saturday".data then some .sat
  else if s = "sun".data ∨ s = "sunday".data then some .sun
  else none

/-- Rust `str::split(':')`: splits on every colon, keeping empty
fields; the empty string yields one empty field. -/
def split_colon : List Char → List (List Char)
  | [] => [[]]
  | c :: rest =>
    if c = ':' then [] :: split_colon rest
    else
      match split_colon rest with
      | [] => [[c]]
      | f :: fs => (c :: f) :: fs

/-- Parsing a Rust string as an unsigned decimal integer, with no upper
bound: an optional leading `+`, then one or more ASCII digits
(the syntax accepted by `u{N}::from_str` before its overflow check). -/
def parse_unsigned (s : List Char) : Option Nat :=
  let digits :=
    match s with
    | '+' :: rest => rest
    | _ => s
  if digits ≠ [] ∧ digits.all Char.isDigit then
    some (digits.foldl (fun acc c => acc * 10 + (c.toNat - 48)) 0)
  else none

/-- Rust `str::parse::<u8>()`: unsigned-decimal syntax plus the `u8`
overflow bound. -/
def parse_u8 (s : List Char) : Option Nat :=
  match parse_unsigned s with
  | some v => if v < 256 then some v else none
  | none => none

/-- `time_from_string` from `src/weekly/utils.rs`: requires exactly two
`:`-separated fields, parses each as a `u8`, then checks
`hour <= 23 && minute <= 59`.  Every failure (`bail!`, parse error,
`ensure!`) is embedded as `none`. -/
def time_from_string (input : List Char) : Option (Nat × Nat) :=
  match split_colon input with
  | [f0, f1] =>
    (parse_u8 f0).bind fun hour =>
      (parse_u8 f1).bind fun minute =>
        if hour ≤ 23 ∧ minute ≤ 59 then some (hour, minute) else none
  | _ => none

/-- Closed form of `time_as_weekly_minute` on all inputs: the saturating
arithmetic never saturates, the clamps are the only effect, and the final
range assertion always succeeds. -/
theorem time_as_weekly_minute_closed_form (d : Weekday) (hour minute : Nat) :
    time_as_weekly_minute d hour minute
      = some (d.num_days_from_monday * 1440 + min hour 23 * 60 + min minute 59) := by
  cases d <;>
    simp only [time_as_weekly_minute, u32_saturating_mul, u32_saturating_add,
      Weekday.num_days_from_monday, MAX_WEEKLY_MINS, U32_MAX] <;>
    split <;>
    first
      | (simp only [Option.some.injEq]; omega)
      | (next h => exact absurd (by omega) h)

/-- Claim C2: for every weekday, `hour ≤ 23` and `minute ≤ 59`,
`time_as_weekly_minute` returns exactly
`weekday_index * 1440 + hour * 60 + minute` (Monday = 0), and that value
is strictly below 10080. -/
theorem time_as_weekly_minute_in_range (d : Weekday) (hour minute : Nat)
    (hh : hour ≤ 23) (hm : minute ≤ 59) :
    time_as_weekly_minute d hour minute
      = some (d.num_days_from_monday * 1440 + hour * 60 + minute) ∧
    d.num_days_from_monday * 1440 + hour * 60 + minute < 10080 := by
  have h := time_as_weekly_minute_closed_form d hour minute
  rw [Nat.min_eq_left hh, Nat.min_eq_left hm] at h
  refine ⟨h, ?_⟩
  cases d <;> simp only [Weekday.num_days_from_monday] <;> omega

/-- Witness for C2 at Wednesday 10:30. -/
theorem time_as_weekly_minute_in_range_witness :
    time_as_weekly_minute Weekday.wed 10 30 = some 3510 ∧
    (3510 : Nat) < 10080 := by
  have h := time_as_weekly_minute_in_range Weekday.wed 10 30
    (by decide) (by decide)
  simpa [Weekday.num_days_from_monday] using h

/-- Claim C3: for every weekday and arbitrary `hour`, `minute` (all `u8`
values included), `time_as_weekly_minute` never panics: it returns the
computation with `hour` clamped to 23 and `minute` clamped to 59, the
result is always strictly below 10080, so the internal `assert!` can
never fire. -/
theorem time_as_weekly_minute_never_panics (d : Weekday) (hour minute : Nat) :
    time_as_weekly_minute d hour minute
      = some (d.num_days_from_monday * 1440 + min hour 23 * 60 + min minute 59) ∧
    d.num_days_from_monday * 1440 + min hour 23 * 60 + min minute 59 < 10080 := by
  refine ⟨time_as_weekly_minute_closed_form d hour minute, ?_⟩
  cases d <;> simp only [Weekday.num_days_from_monday] <;> omega

/-- Claim C1 failing-input evaluation: the source's `match` arm is the
misspelling `"tuesady"`, so the canonical name `"tuesday"` (in any
case) is rejected while the non-word `"tuesady"` is accepted; the other
arms behave as documented. -/
theorem weekday_from_string_tuesday_bug :
    weekday_from_string "tuesday".data = none ∧
    weekday_from_string "Tuesday".data = none ∧
    weekday_from_string "TUESDAY".data = none ∧
    weekday_from_string "tuesady".data = some Weekday.tue ∧
    weekday_from_string "tue".data = some Weekday.tue ∧
    weekday_from_string "TUE".data = some Weekday.tue ∧
    weekday_from_string "monday".data = some Weekday.mon ∧
    weekday_from_string "Wednesday".data = some Weekday.wed ∧
    weekday_from_string "SUNDAY".data = some Weekday.sun ∧
    weekday_from_string "domenica".data = none := by
  decide

/-- `parse_u8` succeeds exactly when the unbounded unsigned parse
succeeds with a value below 256. -/
theorem parse_u8_eq_some (s : List Char) (v : Nat) :
    parse_u8 s = some v ↔ parse_unsigned s = some v ∧ v < 256 := by
  simp only [parse_u8]
  cases h : parse_unsigned s with
  | none => simp
  | some w =>
    by_cases hw : w < 256
    · simp only [hw, if_pos, if_neg, Option.some.injEq, not_false_iff]
      constructor
      · intro hyp
        exact ⟨hyp, by omega⟩
      · intro hyp
        exact hyp.1
    · simp only [hw, if_pos, if_neg, Option.some.injEq, not_false_iff]
      constructor
      · intro hyp
        exact Option.noConfusion hyp
      · intro hyp
        exact absurd hyp.2 (hyp.1 ▸ hw)

/-- Success characterization of `time_from_string`: it returns `(h, m)`
exactly when the input has two `:`-separated fields whose unbounded
unsigned parses give `h ≤ 23` and `m ≤ 59`. -/
theorem time_from_string_eq_some (input : List Char) (h m : Nat) :
    time_from_string input = some (h, m) ↔
      ∃ f0 f1, split_colon input = [f0, f1] ∧
        parse_unsigned f0 = some h ∧ parse_unsigned f1 = some m ∧
        h ≤ 23 ∧ m ≤ 59 := by
  constructor
  · intro heq
    unfold time_from_string at heq
    rcases hsp : split_colon input with _ | ⟨f0, _ | ⟨f1, _ | ⟨f2, tl⟩⟩⟩ <;>
      rw [hsp] at heq <;> simp only [] at heq
    · exact Option.noConfusion heq
    · exact Option.noConfusion heq
    · cases hp0 : parse_u8 f0 with
      | none => rw [hp0] at heq; simp at heq
      | some w0 =>
        rw [hp0] at heq
        simp only [Option.some_bind] at heq
        cases hp1 : parse_u8 f1 with
        | none => rw [hp1] at heq; simp at heq
        | some w1 =>
          rw [hp1] at heq
          simp only [Option.some_bind] at heq
          by_cases hcond : w0 ≤ 23 ∧ w1 ≤ 59
          · rw [if_pos hcond] at heq
            have hpair : (w0, w1) = (h, m) := by injection heq
            have he0 : w0 = h := congrArg Prod.fst hpair
            have he1 : w1 = m := congrArg Prod.snd hpair
            obtain ⟨hw0, _⟩ := (parse_u8_eq_some f0 w0).mp hp0
            obtain ⟨hw1, _⟩ := (parse_u8_eq_some f1 w1).mp hp1
            exact ⟨f0, f1, rfl, he0 ▸ hw0, he1 ▸ hw1, he0 ▸ hcond.1, he1 ▸ hcond.2⟩
          · rw [if_neg hcond] at heq
            exact Option.noConfusion heq
    · exact Option.noConfusion heq
  · rintro ⟨f0, f1, hsp, hu0, hu1, hh, hm⟩
    have hp0 : parse_u8 f0 = some h := (parse_u8_eq_some f0 h).mpr ⟨hu0, by omega⟩
    have hp1 : parse_u8 f1 = some m := (parse_u8_eq_some f1 m).mpr ⟨hu1, by omega⟩
    unfold time_from_string
    rw [hsp]
    simp only []
    rw [hp0, hp1]
    simp only [Option.some_bind]
    rw [if_pos ⟨hh, hm⟩]

/-- Claim C4: `time_from_string` succeeds with `(hour, minute)` exactly
when the input splits into two `:`-separated fields, each parseable as
an unsigned integer, with `hour ≤ 23` and `minute ≤ 59`; in particular
`"6:20"` gives `(6, 20)`, `"14:05"` gives `(14, 5)`, while `"25:00"`,
`"23:60"` and `"-00:00"` all fail. -/
theorem time_from_string_spec :
    (∀ (input : List Char) (h m : Nat),
      time_from_string input = some (h, m) ↔
        ∃ f0 f1, split_colon input = [f0, f1] ∧
          parse_unsigned f0 = some h ∧ parse_unsigned f1 = some m ∧
          h ≤ 23 ∧ m ≤ 59) ∧
    time_from_string "6:20".data = some (6, 20) ∧
    time_from_string "14:05".data = some (14, 5) ∧
    time_from_string "25:00".data = none ∧
    time_from_string "23:60".data = none ∧
    time_from_string "-00:00".data = none ∧
    time_from_string "12".data = none ∧
    time_from_string "1:2:3".data = none ∧
    time_from_string "ab:cd".data = none := by
  exact ⟨time_from_string_eq_some, by decide, by decide, by decide,
    by decide, by decide, by decide, by decide, by decide⟩

/-- Claim C5: on whole-second durations, `check_duration` fails exactly
on zero (`zeroLength`) and on more than one week, `604800` seconds
(`tooLong`), and accepts every length in `1..=604800`. -/
theorem check_duration_bounds (s : Nat) :
    check_duration ⟨s, 0⟩
      = (if 604800 < s then .error .tooLong
         else if s = 0 then .error .zeroLength
         else .ok ()) ∧
    (check_duration ⟨s, 0⟩ = .ok () ↔ 1 ≤ s ∧ s ≤ 604800) := by
  refine ⟨rfl, ?_⟩
  simp only [check_duration, Duration.as_secs, MAX_WEEKLY_SECS]
  split_ifs <;> simp <;> omega

/-- Claim C10: `check_duration` reads only the whole-seconds part: a
positive sub-second duration is rejected as zero-length, and a duration
strictly between `604800` and `604801` seconds is accepted. -/
theorem check_duration_subsecond (n : Nat) (h0 : 0 < n) (h9 : n < 1000000000) :
    check_duration ⟨0, n⟩ = .error .zeroLength ∧
    check_duration ⟨604800, n⟩ = .ok () := by
  constructor
  · show (if (604800 : Nat) < 0 then
          (Except.error DurationError.tooLong : Except DurationError Unit)
        else if (0 : Nat) = 0 then Except.error DurationError.zeroLength
        else Except.ok ())
      = Except.error DurationError.zeroLength
    rw [if_neg (by omega), if_pos rfl]
  · show (if (604800 : Nat) < 604800 then
          (Except.error DurationError.tooLong : Except DurationError Unit)
        else if (604800 : Nat) = 0 then Except.error DurationError.zeroLength
        else Except.ok ())
      = Except.ok ()
    rw [if_neg (by omega), if_neg (by omega)]

/-- Witness for C10 at one nanosecond of sub-second excess. -/
theorem check_duration_subsecond_witness :
    check_duration ⟨0, 1⟩ = .error .zeroLength ∧
    check_duration ⟨604800, 1⟩ = .ok () :=
  check_duration_subsecond 1 (by decide) (by decide)

/-! ## Configuration fragments and overlay merge (`src/config/inputs.rs`)

The fragment struct declarations live in `src/config/fragments.rs`, which
is not among the provided source files; their field shapes are modelled
from the spec's input format (§6: TOML sections `agent.timing`,
`cincinnati`, `updates` with nested `fleet_lock` / `periodic.window[]` /
`periodic.time_zone`, and `identity`; every field optional) and are
pinned by the `if let Some` accesses in `inputs.rs`.  The feature-gated
`drogue` section is omitted, matching the default build.  Rust `String`
is embedded as Lean `String`; a `NotNan<f64>` value is embedded opaquely
by its 64-bit pattern, since the merge only moves such values. -/

/-- Modelled from the spec: a non-NaN `f64`, represented by its bit
pattern; the overlay merge copies these values without inspecting
them. -/
structure NotNanF64 where
  bits : Nat

/-- Modelled from the spec: `fragments::AgentFragment.timing`. -/
structure TimingFragment where
  steady_interval_secs : Option Nat

/-- Modelled from the spec: `fragments::AgentFragment`. -/
structure AgentFragment where
  timing : Option TimingFragment

/-- Modelled from the spec: `fragments::CincinnatiFragment`. -/
structure CincinnatiFragment where
  base_url : Option String

/-- Modelled from the spec: `fragments::IdentityFragment`. -/
structure IdentityFragment where
  group : Option String
  node_uuid : Option String
  rollout_wariness : Option NotNanF64

/-- Modelled from the spec: `fragments::UpdateFleetLockFragment`. -/
structure FleetLockFragment where
  base_url : Option String

/-- Modelled from the spec: one `periodic.window[]` entry — a list of
weekday names, a start-time string, and a length in minutes. -/
structure WindowEntry where
  days : List String
  start_time : String
  length_minutes : Nat

/-- Modelled from the spec: `fragments::UpdatePeriodicFragment`. -/
structure PeriodicFragment where
  time_zone : Option String
  window : Option (List WindowEntry)

/-- Modelled from the spec: `fragments::UpdateFragment`. -/
structure UpdateFragment where
  allow_downgrade : Option Bool
  enabled : Option Bool
  strategy : Option String
  fleet_lock : Option FleetLockFragment
  periodic : Option PeriodicFragment

/-- Modelled from the spec: `fragments::ConfigFragment` — one TOML
document, every section optional. -/
structure ConfigFragment where
  agent : Option AgentFragment
  cincinnati : Option CincinnatiFragment
  updates : Option UpdateFragment
  identity : Option IdentityFragment

/-- `AgentInput` from `src/config/inputs.rs` (the `NonZeroU64` value is
embedded as `Nat`). -/
structure AgentInput where
  steady_interval_secs : Nat

/-- Modelled from the spec: `DEFAULT_STEADY_INTERVAL_SECS` is declared
in the `update_agent` module, absent from the provided sources; the spec
fixes only that it is a non-zero constant.  The value `300` is used
here. -/
def DEFAULT_STEADY_INTERVAL_SECS : Nat := 300

/-- `CincinnatiInput` from `src/config/inputs.rs`. -/
structure CincinnatiInput where
  base_url : String

/-- `IdentityInput` from `src/config/inputs.rs`. -/
structure IdentityInput where
  group : String
  node_uuid : String
  rollout_wariness : Option NotNanF64

/-- `FleetLockInput` from `src/config/inputs.rs`. -/
structure FleetLockInput where
  base_url : String

/-- `PeriodicIntervalInput` from `src/config/inputs.rs`: one update
window for the periodic strategy. -/
structure PeriodicIntervalInput where
  start_day : String
  start_time : String
  length_minutes : Nat
deriving DecidableEq

/-- `PeriodicInput` from `src/config/inputs.rs`. -/
structure PeriodicInput where
  intervals : List PeriodicIntervalInput
  time_zone : String

/-- `UpdateInput` from `src/config/inputs.rs`. -/
structure UpdateInput where
  allow_downgrade : Bool
  enabled : Bool
  strategy : String
  fleet_lock : FleetLockInput
  periodic : PeriodicInput

/-- `ConfigInput` from `src/config/inputs.rs` (without the feature-gated
`drogue` section). -/
structure ConfigInput where
  agent : AgentInput
  cincinnati : CincinnatiInput
  updates : UpdateInput
  identity : IdentityInput

/-- The expansion of one `periodic.window[]` entry inside
`UpdateInput::from_fragments`: one `PeriodicIntervalInput` per named
day, sharing the entry's start time and length. -/
def expand_entry (entry : WindowEntry) : List PeriodicIntervalInput :=
  entry.days.map fun day =>
    { start_day := day
      start_time := entry.start_time
      length_minutes := entry.length_minutes }

/-- The body of the `for snip in fragments` loop of
`UpdateInput::from_fragments`: apply one fragment to the running
configuration. -/
def apply_update_fragment (cfg : UpdateInput) (snip : UpdateFragment) : UpdateInput :=
  let c1 :=
    match snip.allow_downgrade with
    | some a => { cfg with allow_downgrade := a }
    | none => cfg
  let c2 :=
    match snip.enabled with
    | some e => { c1 with enabled := e }
    | none => c1
  let c3 :=
    match snip.strategy with
    | some s => { c2 with strategy := s }
    | none => c2
  let c4 :=
    match snip.fleet_lock with
    | some fl =>
      match fl.base_url with
      | some b => { c3 with fleet_lock := { base_url := b } }
      | none => c3
    | none => c3
  match snip.periodic with
  | some w =>
    let c5 :=
      match w.time_zone with
      | some tz => { c4 with periodic := { c4.periodic with time_zone := tz } }
      | none => c4
    match w.window with
    | some win =>
      { c5 with periodic := { c5.periodic with
          intervals := c5.periodic.intervals ++ win.flatMap expand_entry } }
    | none => c5
  | none => c4

/-- The seed value of `UpdateInput::from_fragments` before the loop. -/
def update_input_default : UpdateInput :=
  { allow_downgrade := false
    enabled := true
    strategy := ""
    fleet_lock := { base_url := "" }
    periodic := { intervals := [], time_zone := "UTC" } }

/-- `UpdateInput::from_fragments` from `src/config/inputs.rs`. -/
def UpdateInput.from_fragments (fragments : List UpdateFragment) : UpdateInput :=
  fragments.foldl apply_update_fragment update_input_default

/-- `CincinnatiInput::from_fragments` from `src/config/inputs.rs`. -/
def CincinnatiInput.from_fragments (fragments : List CincinnatiFragment) : CincinnatiInput :=
  fragments.foldl
    (fun cfg snip =>
      match snip.base_url with
      | some u => { base_url := u }
      | none => cfg)
    { base_url := "" }

/-- `AgentInput::from_fragments` from `src/config/inputs.rs`. -/
def AgentInput.from_fragments (fragments : List AgentFragment) : AgentInput :=
  fragments.foldl
    (fun cfg snip =>
      match snip.timing with
      | some timing =>
        match timing.steady_interval_secs with
        | some s => { steady_interval_secs := s }
        | none => cfg
      | none => cfg)
    { steady_interval_secs := DEFAULT_STEADY_INTERVAL_SECS }

/-- The body of the `for snip in fragments` loop of
`IdentityInput::from_fragments`. -/
def apply_identity_fragment (cfg : IdentityInput) (snip : IdentityFragment) : IdentityInput :=
  let c1 :=
    match snip.group with
    | some g => { cfg with group := g }
    | none => cfg
  let c2 :=
    match snip.node_uuid with
    | some nu => { c1 with node_uuid := nu }
    | none => c1
  match snip.rollout_wariness with
  | some rw => { c2 with rollout_wariness := some rw }
  | none => c2

/-- `IdentityInput::from_fragments` from `src/config/inputs.rs`. -/
def IdentityInput.from_fragments (fragments : List IdentityFragment) : IdentityInput :=
  fragments.foldl apply_identity_fragment
    { group := "", node_uuid := "", rollout_wariness := none }

/-- `ConfigInput::merge_fragments` from `src/config/inputs.rs`: collect
each section's present fragments in order, then build each section with
its `from_fragments`. -/
def ConfigInput.merge_fragments (fragments : List ConfigFragment) : ConfigInput :=
  { agent := AgentInput.from_fragments (fragments.filterMap fun snip => snip.agent)
    cincinnati := CincinnatiInput.from_fragments (fragments.filterMap fun snip => snip.cincinnati)
    updates := UpdateInput.from_fragments (fragments.filterMap fun snip => snip.updates)
    identity := IdentityInput.from_fragments (fragments.filterMap fun snip => snip.identity) }

/-- Closed form of one overlay step of `UpdateInput::from_fragments`:
every scalar field is present-replaces / absent-keeps, and the window
list is appended to. -/
theorem apply_update_fragment_eq (cfg : UpdateInput) (f : UpdateFragment) :
    apply_update_fragment cfg f =
      { allow_downgrade := f.allow_downgrade.getD cfg.allow_downgrade
        enabled := f.enabled.getD cfg.enabled
        strategy := f.strategy.getD cfg.strategy
        fleet_lock :=
          { base_url :=
              ((f.fleet_lock.bind fun fl => fl.base_url).getD cfg.fleet_lock.base_url) }
        periodic :=
          { intervals := cfg.periodic.intervals ++
              ((f.periodic.bind fun w => w.window).getD []).flatMap expand_entry
            time_zone :=
              ((f.periodic.bind fun w => w.time_zone).getD cfg.periodic.time_zone) } } := by
  rcases f with ⟨ad, en, st, fl, pe⟩
  rcases ad with _ | a <;>
    rcases en with _ | e <;>
    rcases st with _ | s <;>
    rcases fl with _ | ⟨fb⟩ <;>
    rcases pe with _ | ⟨tz, win⟩ <;>
    (try rcases fb with _ | b) <;>
    (try rcases tz with _ | t) <;>
    (try rcases win with _ | w) <;>
    simp [apply_update_fragment]

/-- Closed form of one overlay step of `IdentityInput::from_fragments`. -/
theorem apply_identity_fragment_eq (cfg : IdentityInput) (f : IdentityFragment) :
    apply_identity_fragment cfg f =
      { group := f.group.getD cfg.group
        node_uuid := f.node_uuid.getD cfg.node_uuid
        rollout_wariness :=
          match f.rollout_wariness with
          | some rw => some rw
          | none => cfg.rollout_wariness } := by
  rcases f with ⟨gr, nu, rw⟩
  rcases gr with _ | g <;> rcases nu with _ | n <;> rcases rw with _ | r <;>
    simp [apply_identity_fragment]

/-- Appending one fragment to the list is one overlay step. -/
theorem update_from_fragments_append (fs : List UpdateFragment) (f : UpdateFragment) :
    UpdateInput.from_fragments (fs ++ [f])
      = apply_update_fragment (UpdateInput.from_fragments fs) f := by
  simp [UpdateInput.from_fragments, List.foldl_append]

/-- Claim C6: one window entry naming `n` weekdays expands, through the
merge, into exactly `n` intervals, one per named day, all sharing the
entry's start time and length; and the weekly start minute of a given
clock time on day `d` is exactly `d`'s 1440-minute block plus the
day-independent contribution of the clock time. -/
theorem window_entry_expands_per_day (entry : WindowEntry) (d : Weekday)
    (hour minute : Nat) :
    (UpdateInput.from_fragments
        [{ allow_downgrade := none, enabled := none, strategy := none,
           fleet_lock := none,
           periodic := some { time_zone := none,
                              window := some [entry] } }]).periodic.intervals
      = entry.days.map (fun day =>
          { start_day := day, start_time := entry.start_time,
            length_minutes := entry.length_minutes }) ∧
    (UpdateInput.from_fragments
        [{ allow_downgrade := none, enabled := none, strategy := none,
           fleet_lock := none,
           periodic := some { time_zone := none,
                              window := some [entry] } }]).periodic.intervals.length
      = entry.days.length ∧
    ((UpdateInput.from_fragments
        [{ allow_downgrade := none, enabled := none, strategy := none,
           fleet_lock := none,
           periodic := some { time_zone := none,
                              window := some [entry] } }]).periodic.intervals.all
        fun iv => iv.start_time == entry.start_time
          && iv.length_minutes == entry.length_minutes) = true ∧
    (∃ base, time_as_weekly_minute Weekday.mon hour minute = some base ∧
      time_as_weekly_minute d hour minute
        = some (d.num_days_from_monday * 1440 + base)) := by
  refine ⟨?_, ?_, ?_, min hour 23 * 60 + min minute 59, ?_, ?_⟩
  · simp [UpdateInput.from_fragments, apply_update_fragment, update_input_default,
      expand_entry]
  · simp [UpdateInput.from_fragments, apply_update_fragment, update_input_default,
      expand_entry]
  · simp [UpdateInput.from_fragments, apply_update_fragment, update_input_default,
      expand_entry, List.all_eq_true]
  · simpa [Weekday.num_days_from_monday]
      using time_as_weekly_minute_closed_form Weekday.mon hour minute
  · simpa [Nat.add_assoc] using time_as_weekly_minute_closed_form d hour minute

/-- Claim C7: scalar fields merge last-fragment-wins — a later
fragment's present value replaces the running value, an absent field
leaves it unchanged — for `enabled`, `allow_downgrade`, `strategy`, the
fleet-lock base URL, `time_zone`, the Cincinnati base URL, and the
identity `group`; and merging
`[{strategy: "periodic"}, {enabled: false}]` yields `enabled = false`
with `strategy = "periodic"`. -/
theorem scalar_fields_last_fragment_wins :
    (∀ (fs : List UpdateFragment) (f : UpdateFragment),
      (UpdateInput.from_fragments (fs ++ [f])).enabled
          = f.enabled.getD (UpdateInput.from_fragments fs).enabled ∧
      (UpdateInput.from_fragments (fs ++ [f])).allow_downgrade
          = f.allow_downgrade.getD (UpdateInput.from_fragments fs).allow_downgrade ∧
      (UpdateInput.from_fragments (fs ++ [f])).strategy
          = f.strategy.getD (UpdateInput.from_fragments fs).strategy ∧
      (UpdateInput.from_fragments (fs ++ [f])).fleet_lock.base_url
          = ((f.fleet_lock.bind fun fl => fl.base_url).getD
              (UpdateInput.from_fragments fs).fleet_lock.base_url) ∧
      (UpdateInput.from_fragments (fs ++ [f])).periodic.time_zone
          = ((f.periodic.bind fun w => w.time_zone).getD
              (UpdateInput.from_fragments fs).periodic.time_zone)) ∧
    (∀ (gs : List CincinnatiFragment) (g : CincinnatiFragment),
      (CincinnatiInput.from_fragments (gs ++ [g])).base_url
          = g.base_url.getD (CincinnatiInput.from_fragments gs).base_url) ∧
    (∀ (hs : List IdentityFragment) (hf : IdentityFragment),
      (IdentityInput.from_fragments (hs ++ [hf])).group
          = hf.group.getD (IdentityInput.from_fragments hs).group) ∧
    (UpdateInput.from_fragments
        [{ allow_downgrade := none, enabled := none,
           strategy := some "periodic", fleet_lock := none, periodic := none },
         { allow_downgrade := none, enabled := some false,
           strategy := none, fleet_lock := none, periodic := none }]).enabled
      = false ∧
    (UpdateInput.from_fragments
        [{ allow_downgrade := none, enabled := none,
           strategy := some "periodic", fleet_lock := none, periodic := none },
         { allow_downgrade := none, enabled := some false,
           strategy := none, fleet_lock := none, periodic := none }]).strategy
      = "periodic" := by
  refine ⟨?_, ?_, ?_, rfl, rfl⟩
  · intro fs f
    rw [update_from_fragments_append, apply_update_fragment_eq]
    exact ⟨rfl, rfl, rfl, rfl, rfl⟩
  · intro gs g
    rcases g with ⟨_ | u⟩ <;>
      simp [CincinnatiInput.from_fragments, List.foldl_append]
  · intro hs hf
    simp [IdentityInput.from_fragments, List.foldl_append,
      apply_identity_fragment_eq]

/-- Claim C8: the periodic window list accumulates — a later fragment's
windows are appended to, never replace, the earlier ones; merging a
fragment with window `A` then one with window `B` leaves both expansions
present, in order. -/
theorem periodic_windows_accumulate :
    (∀ (fs : List UpdateFragment) (f : UpdateFragment),
      (UpdateInput.from_fragments (fs ++ [f])).periodic.intervals
        = (UpdateInput.from_fragments fs).periodic.intervals ++
          ((f.periodic.bind fun w => w.window).getD []).flatMap expand_entry) ∧
    (UpdateInput.from_fragments
        [{ allow_downgrade := none, enabled := none, strategy := none,
           fleet_lock := none,
           periodic := some { time_zone := none,
                              window := some [{ days := ["sat"],
                                                start_time := "02:00",
                                                length_minutes := 180 }] } },
         { allow_downgrade := none, enabled := none, strategy := none,
           fleet_lock := none,
           periodic := some { time_zone := none,
                              window := some [{ days := ["sun", "mon"],
                                                start_time := "03:30",
                                                length_minutes := 60 }] } }]).periodic.intervals
      = [{ start_day := "sat", start_time := "02:00", length_minutes := 180 },
         { start_day := "sun", start_time := "03:30", length_minutes := 60 },
         { start_day := "mon", start_time := "03:30", length_minutes := 60 }] := by
  refine ⟨?_, by decide⟩
  intro fs f
  rw [update_from_fragments_append, apply_update_fragment_eq]

/-- Claim C9: merging the empty fragment list is total and yields the
documented defaults: empty window list, `time_zone = "UTC"`,
`enabled = true`, `allow_downgrade = false`, empty strategy and base-URL
strings, empty identity strings, no wariness, and the non-zero default
steady-state polling interval. -/
theorem merge_empty_fragments_defaults :
    ConfigInput.merge_fragments []
      = { agent := { steady_interval_secs := DEFAULT_STEADY_INTERVAL_SECS }
          cincinnati := { base_url := "" }
          updates := { allow_downgrade := false, enabled := true, strategy := "",
                       fleet_lock := { base_url := "" },
                       periodic := { intervals := [], time_zone := "UTC" } }
          identity := { group := "", node_uuid := "", rollout_wariness := none } } ∧
    0 < DEFAULT_STEADY_INTERVAL_SECS := by
  exact ⟨rfl, by decide⟩
